import Mathlib

/-!
Verification of the per-frame segmentation/compositing pipeline of the
js-segment repository (source files `src/components/Segmentation.tsx`,
`src/App.tsx`, `src/components/SegmentationComponent.tsx`).

The pixel data model follows the browser `ImageData` layout: a flat,
row-major RGBA byte buffer.  Pure pixel functions (`blurMask`,
`enhanceGamma`) are transcribed from the source; the canvas 2D
`source-over` compositing primitive used at the end of `processFrame`
is modelled by its exact rational formula (the HTML canvas compositing
equation); the `requestAnimationFrame` loop and its readiness gate are
modelled as a labelled transition system over the component's state.
-/

/-- Browser `ImageData`: flat row-major RGBA bytes (4 per pixel). -/
structure ImageData where
  width : Nat
  height : Nat
  data : List Nat
deriving DecidableEq

/-- Red byte of pixel `i` (flat index). Out-of-range reads give 0,
matching typed-array semantics for the buffers built in the source. -/
def imgR (img : ImageData) (i : Nat) : Nat := img.data.getD (i * 4) 0

/-- Green byte of pixel `i`. -/
def imgG (img : ImageData) (i : Nat) : Nat := img.data.getD (i * 4 + 1) 0

/-- Blue byte of pixel `i`. -/
def imgB (img : ImageData) (i : Nat) : Nat := img.data.getD (i * 4 + 2) 0

/-- Alpha byte of pixel `i`. -/
def imgAlpha (img : ImageData) (i : Nat) : Nat := img.data.getD (i * 4 + 3) 0

/-- JavaScript `Math.round(sum / cnt)` for nonnegative integers:
`floor(sum/cnt + 1/2) = (2*sum + cnt) / (2*cnt)` in integer division. -/
def jsRound (sum cnt : Nat) : Nat := (2 * sum + cnt) / (2 * cnt)

/-- The `tmp` array of `blurMask` (Segmentation.tsx:28-31):
`tmp[i] = data[i*4+3]` for `i < width*height`. -/
def blurTmp (img : ImageData) : List Nat :=
  (List.range (img.width * img.height)).map (fun i => img.data.getD (i * 4 + 3) 0)

/-- The index set traversed by the blur window loops
(Segmentation.tsx:37-38): `yy` from `max(0, y-r)` to `min(height-1, y+r)`
(outer), `xx` from `max(0, x-r)` to `min(width-1, x+r)` (inner).  On `Nat`,
truncated subtraction `y - r` equals `max(0, y-r)`, and filtering
`List.range` realises both clamped loop bounds. -/
def blurWindow (w h r x y : Nat) : List (Nat × Nat) :=
  ((List.range h).filter (fun yy => decide (y - r ≤ yy) && decide (yy ≤ y + r))).flatMap
    (fun yy =>
      ((List.range w).filter (fun xx => decide (x - r ≤ xx) && decide (xx ≤ x + r))).map
        (fun xx => (xx, yy)))

/-- The blurred alpha value of pixel `(x, y)` (Segmentation.tsx:35-43):
`Math.round(sum / cnt)` where `sum` adds `tmp[yy*width+xx]` over the
clamped window and `cnt` counts the samples. -/
def blurVal (img : ImageData) (r x y : Nat) : Nat :=
  jsRound
    (((blurWindow img.width img.height r x y).map
        (fun p => (blurTmp img).getD (p.2 * img.width + p.1) 0)).sum)
    (blurWindow img.width img.height r x y).length

/-- One iteration of the `blurMask` write loop for flattened pixel `i`
(`x = i % width`, `y = i / width`, as produced by the row-major double
loop of Segmentation.tsx:33-47).  The state is the pair
(input `data` buffer, output `out` buffer); the body writes the four
output bytes `out[idx..idx+3]` with `idx = (y*width+x)*4` and never
touches the input buffer.  `List.set` drops out-of-range writes exactly
as typed-array stores do. -/
def blurStep (img : ImageData) (r : Nat) (st : List Nat × List Nat) (i : Nat) :
    List Nat × List Nat :=
  let x := i % img.width
  let y := i / img.width
  let idx := (y * img.width + x) * 4
  (st.1,
    ((((st.2.set idx 0).set (idx + 1) 0).set (idx + 2) 0).set (idx + 3)
      (blurVal img r x y)))

/-- The full write loop of `blurMask`: starts from the input buffer plus a
freshly allocated zero buffer of the same byte length
(`new Uint8ClampedArray(data.length)`, Segmentation.tsx:27) and runs the
row-major pixel loop. -/
def blurMaskRun (img : ImageData) (r : Nat) : List Nat × List Nat :=
  (List.range (img.width * img.height)).foldl (blurStep img r)
    (img.data, List.replicate img.data.length 0)

/-- `blurMask` (Segmentation.tsx:25-50): returns a new `ImageData` of the
same dimensions whose data is the freshly written output buffer. -/
def blurMask (img : ImageData) (r : Nat) : ImageData :=
  ⟨img.width, img.height, (blurMaskRun img r).2⟩

/-- The spec's description of the blur window: all in-bounds pixels of the
`(2r+1) x (2r+1)` square centred on `(x, y)`, with integer (not truncated)
distance bounds; no wrap-around, no zero padding.  Same traversal order as
the source loops. -/
def specWindow (w h r x y : Nat) : List (Nat × Nat) :=
  ((List.range h).filter
      (fun (yy : Nat) =>
        decide ((y : ℤ) - r ≤ (yy : ℤ)) && decide ((yy : ℤ) ≤ y + r))).flatMap
    (fun yy =>
      ((List.range w).filter
          (fun (xx : Nat) =>
            decide ((x : ℤ) - r ≤ (xx : ℤ)) && decide ((xx : ℤ) ≤ x + r))).map
        (fun xx => (xx, yy)))

/-- The spec's blurred alpha: the unweighted mean of the alpha values of
all in-bounds window samples, divisor equal to the number of samples,
rounded to the nearest 8-bit integer (`floor(mean + 1/2)`). -/
def specMeanRounded (img : ImageData) (r x y : Nat) : Nat :=
  ⌊(((specWindow img.width img.height r x y).map
        (fun p => (imgAlpha img (p.2 * img.width + p.1) : ℚ))).sum /
      (specWindow img.width img.height r x y).length + 1 / 2 : ℚ)⌋₊

/-- Nearest integer to the cube root of `n`: the least `k` with
`8*n < (2k+1)^3`, i.e. `round(cbrt n)`.  A tie (`cbrt n = k + 1/2`)
is impossible since `(2k+1)^3` is odd while `8*n` is even. -/
def roundCbrt (n : Nat) : Nat :=
  ((List.range 256).filter (fun k => decide (8 * n < (2 * k + 1) ^ 3))).headD 256

/-- The gamma curve of `enhanceGamma` at the source's default
`gamma = 1.5` (Segmentation.tsx:13-19), in exact integer form:
`min(255, Math.pow(v/255, 1/1.5) * 255)` stored to a clamped byte equals
`round(255^(1/3) * v^(2/3)) = round(cbrt(255 * v^2))` for `v ≤ 255`
(the real value is never exactly half-integral, so the float rounding
mode cannot matter). -/
def gammaMap15 (v : Nat) : Nat := min 255 (roundCbrt (255 * v ^ 2))

/-- `enhanceGamma` (Segmentation.tsx:13-23) at the default gamma: maps
every RGB byte through the gamma curve and leaves every alpha byte
untouched (byte `i` is an alpha byte iff `i % 4 = 3`). -/
def enhanceGamma (img : ImageData) : ImageData :=
  ⟨img.width, img.height,
    (List.range img.data.length).map
      (fun i =>
        if i % 4 = 3 then img.data.getD i 0 else gammaMap15 (img.data.getD i 0))⟩

/-- Mask reconciliation (Segmentation.tsx:246-261): if the raw mask
dimensions differ from the frame's, the browser resampler (smoothed
`drawImage` onto a frame-sized canvas) is applied; otherwise the mask is
used as is (the putImageData/getImageData round trip is exact on the
alpha channel).  In both cases `blurMask` with radius 1 is then applied.
The browser resampler is abstracted as the `resample` argument. -/
def reconcileMask (resample : ImageData → Nat → Nat → ImageData)
    (m : ImageData) (w h : Nat) : ImageData :=
  blurMask (if m.width = w ∧ m.height = h then m else resample m w h) 1

/-- A dimension-correct instantiation of the abstract browser resampler,
used only to apply universally quantified theorems at concrete inputs
(the concrete inputs there never reach the resampling branch). -/
def zeroResample (_m : ImageData) (w h : Nat) : ImageData :=
  ⟨w, h, List.replicate (4 * (w * h)) 0⟩

/-- A pixel with exact rational channels (colour 0..255,
alpha 0..255), used for canvas states produced by compositing. -/
structure QPix where
  r : ℚ
  g : ℚ
  b : ℚ
  a : ℚ
deriving DecidableEq

/-- A canvas state: dimensions plus a row-major list of rational pixels. -/
structure QImage where
  width : Nat
  height : Nat
  pix : List QPix
deriving DecidableEq

/-- Canvas 2D `source-over` compositing of one source pixel over one
destination pixel, per the HTML canvas compositing equation on
non-premultiplied colours: `ao = as + ab*(1-as)`,
`co = (cs*as + cb*ab*(1-as)) / ao` (0 when `ao = 0`). -/
def srcOverPix (dst src : QPix) : QPix :=
  let sa : ℚ := src.a / 255
  let da : ℚ := dst.a / 255
  let oa : ℚ := sa + da * (1 - sa)
  if oa = 0 then ⟨0, 0, 0, 0⟩
  else
    ⟨(src.r * sa + dst.r * da * (1 - sa)) / oa,
     (src.g * sa + dst.g * da * (1 - sa)) / oa,
     (src.b * sa + dst.b * da * (1 - sa)) / oa,
     255 * oa⟩

/-- The compositing stage of `processFrame` (Segmentation.tsx:271-296):
the foreground buffer `out` takes its RGB from `videoData` (the fresh raw
capture of the video element, line 276) and its alpha from the reconciled
mask (line 286); `out` is then drawn source-over onto the canvas that
already holds the background layer. -/
def compose (bgLayer : QImage) (videoData mask : ImageData) : QImage :=
  ⟨videoData.width, videoData.height,
    (List.range (videoData.width * videoData.height)).map
      (fun i =>
        srcOverPix (bgLayer.pix.getD i ⟨0, 0, 0, 0⟩)
          ⟨imgR videoData i, imgG videoData i, imgB videoData i,
           imgAlpha mask i⟩)⟩

/-- The fallback background fill of `processFrame`
(Segmentation.tsx:267-268): `ctx.fillStyle = 'green'` fills the canvas
with the opaque CSS colour `green`, rgb(0, 128, 0). -/
def greenFill (w h : Nat) : QImage :=
  ⟨w, h, List.replicate (w * h) ⟨0, 128, 0, 255⟩⟩

/-- Outcome of the asynchronous part of a cycle, as resolved by the
external inference service: the call rejects/throws; the result array has
no first element (Segmentation.tsx:218); no mask can be extracted from it
(line 238); or a mask `ImageData` is obtained.  All three failure points
occur before any write to the output canvas context. -/
inductive SegOutcome where
  | throws : SegOutcome
  | noResult : SegOutcome
  | noMask : SegOutcome
  | mask : ImageData → SegOutcome
deriving DecidableEq

/-- The `try` block of the async cycle body (Segmentation.tsx:208-296):
early `return`s leave the canvas untouched; a throw is signalled as an
error; on the mask path the mask is reconciled (resample if sizes differ,
then radius-1 blur), the canvas is cleared and filled with the background
layer (the cached background if present, the green fallback fill
otherwise), and the composite is drawn. -/
def cycleTry (resample : ImageData → Nat → Nat → ImageData) (canvas : QImage)
    (bg : Option QImage) (frame : ImageData) (outcome : SegOutcome) :
    Except Unit QImage :=
  match outcome with
  | SegOutcome.throws => Except.error ()
  | SegOutcome.noResult => Except.ok canvas
  | SegOutcome.noMask => Except.ok canvas
  | SegOutcome.mask m =>
      let finalMask := reconcileMask resample m frame.width frame.height
      let layer :=
        match bg with
        | some l => l
        | none => greenFill frame.width frame.height
      Except.ok (compose layer frame finalMask)

/-- The resolution of one cycle's async body, including the
`catch` (Segmentation.tsx:297-299) that absorbs any thrown error and
leaves the canvas as it was.  `runningAtResolve` is the value of
`runningRef.current` at the moment the promise resolves; the source body
never consults it (the only `runningRef` check is at the synchronous
start of `processFrame`, line 176). -/
def cycleResolve (resample : ImageData → Nat → Nat → ImageData)
    (_runningAtResolve : Bool) (canvas : QImage) (bg : Option QImage)
    (frame : ImageData) (outcome : SegOutcome) : QImage :=
  match cycleTry resample canvas bg frame outcome with
  | Except.error _ => canvas
  | Except.ok c => c

/-- Enhancement mode (Segmentation.tsx:6). -/
inductive EnhanceMode where
  | none : EnhanceMode
  | gamma : EnhanceMode
deriving DecidableEq

/-- The synchronous offscreen preparation of `processFrame`
(Segmentation.tsx:194-204): the captured frame is drawn to the offscreen
canvas and, when the enhancement mode is `gamma`, `enhanceGamma` is
applied in place to that working copy.  The offscreen canvas is what the
inference call consumes (line 211). -/
def offscreenContent (enhance : EnhanceMode) (frame : ImageData) : ImageData :=
  match enhance with
  | EnhanceMode.none => frame
  | EnhanceMode.gamma => enhanceGamma frame

/-- The blank canvas produced by the width/height assignments at the
synchronous start of every cycle (Segmentation.tsx:191-192): assigning a
canvas's `width` or `height` attribute resets its bitmap to transparent
black, even when the assigned value equals the current one. -/
def blankCanvas (w h : Nat) : QImage :=
  ⟨w, h, List.replicate (w * h) ⟨0, 0, 0, 0⟩⟩

/-- One full `processFrame` invocation: the synchronous guard
(Segmentation.tsx:176, `if (!runningRef.current) return`) aborts before
any work when the gate is false; otherwise the synchronous prelude
assigns `canvas.width`/`canvas.height` (lines 191-192), which resets the
displayed bitmap to transparent black at frame dimensions BEFORE the
inference call, the enhanced offscreen copy is produced (and handed to
the inference service, returned here as the second component), and the
async body eventually resolves as `cycleResolve` on the blanked canvas.
Compositing reads the raw `frame` again (line 276), not the offscreen
copy. -/
def processFrameStep (resample : ImageData → Nat → Nat → ImageData)
    (running : Bool) (enhance : EnhanceMode) (canvas : QImage)
    (bg : Option QImage) (frame : ImageData) (outcome : SegOutcome)
    (runningAtResolve : Bool) : QImage × Option ImageData :=
  if running then
    (cycleResolve resample runningAtResolve
       (blankCanvas frame.width frame.height) bg frame outcome,
     some (offscreenContent enhance frame))
  else (canvas, none)

/-- The effect of a run of consecutive animation-frame ticks while the
loop is armed: each tick runs `processFrame` (with `runningRef` true) and
unconditionally re-arms the next tick (Segmentation.tsx:313-316).  Each
tick first resets the canvas bitmap via the width/height assignments
(lines 191-192) and then resolves its cycle on the blanked canvas, so
the canvas evolves by folding reset-then-resolve steps. -/
def runLoop (resample : ImageData → Nat → Nat → ImageData) (canvas : QImage)
    (bg : Option QImage) (cycles : List (ImageData × SegOutcome)) : QImage :=
  cycles.foldl
    (fun _ fo => cycleResolve resample true
      (blankCanvas fo.1.width fo.1.height) bg fo.1 fo.2) canvas

/-- A draw rectangle with exact rational coordinates (destination rect of
a canvas `drawImage` call). -/
structure QRect where
  x : ℚ
  y : ℚ
  w : ℚ
  h : ℚ
deriving DecidableEq

/-- The destination rectangle used for the background by the main
pipeline (Segmentation.tsx:265): `ctx.drawImage(bg, 0, 0, width, height)`
always targets the full canvas, whatever the background's own size. -/
def bgDrawRectMain (canvasW canvasH _bgW _bgH : Nat) : QRect :=
  ⟨0, 0, canvasW, canvasH⟩

/-- The cover-scaling rectangle computed by `replaceBackground`
(SegmentationComponent.tsx:160-164) and `createBackground`
(App.tsx:228-232): `scale = max(canvasW/bgW, canvasH/bgH)`, scaled size
`bg * scale`, centred in the canvas. -/
def coverRect (canvasW canvasH bgW bgH : Nat) : QRect :=
  let scale : ℚ := max ((canvasW : ℚ) / bgW) ((canvasH : ℚ) / bgH)
  ⟨((canvasW : ℚ) - bgW * scale) / 2, ((canvasH : ℚ) - bgH * scale) / 2,
   bgW * scale, bgH * scale⟩

/-- Model status (Segmentation.tsx:7). -/
inductive ModelStatus where
  | idle : ModelStatus
  | loading : ModelStatus
  | ready : ModelStatus
  | error : ModelStatus
deriving DecidableEq, BEq

/-- The component state relevant to the frame loop: the model status and
`running` React state, the `videoReadyRef` ref, and whether the
requestAnimationFrame loop of the loop effect (Segmentation.tsx:306-323)
is currently armed. -/
structure CompState where
  modelStatus : ModelStatus
  videoReady : Bool
  running : Bool
  loopArmed : Bool
deriving DecidableEq

/-- The gate of the loop effect (Segmentation.tsx:308): model ready,
video ready and running. -/
def canRun (s : CompState) : Bool :=
  (s.modelStatus == ModelStatus.ready) && s.videoReady && s.running

/-- A run of the loop effect (cleanup of the previous run cancels the
previous animation frame, then the guard on line 308 decides whether a
new loop is armed): afterwards the loop is armed exactly when the gate
holds at that moment. -/
def evalLoopEffect (s : CompState) : CompState :=
  { s with loopArmed := canRun s }

/-- The initial component state: model `idle`, video not ready, not
running; the mount-time run of the loop effect leaves the loop unarmed. -/
def initState : CompState :=
  ⟨ModelStatus.idle, false, false, false⟩

/-- The state transitions of the component.  The loop effect has
dependency array `[modelStatus, running]` (Segmentation.tsx:323), so it
re-runs — re-evaluating the gate — on model-status changes and on
`running` changes, but NOT when `videoReadyRef` flips (the source comment
on line 323 records this).  `videoReady` becomes true on the video's
`loadeddata` event (line 98-101) and false only in the unmount cleanup
(line 129), which also tears the loop down. -/
inductive Step : CompState → CompState → Prop where
  | modelLoading {s : CompState} (h : s.modelStatus = ModelStatus.idle) :
      Step s (evalLoopEffect { s with modelStatus := ModelStatus.loading })
  | modelReady {s : CompState} (h : s.modelStatus = ModelStatus.loading) :
      Step s (evalLoopEffect { s with modelStatus := ModelStatus.ready })
  | modelFail {s : CompState} (h : s.modelStatus = ModelStatus.loading) :
      Step s (evalLoopEffect { s with modelStatus := ModelStatus.error })
  | videoLoaded {s : CompState} :
      Step s { s with videoReady := true }
  | setRunning {s : CompState} (b : Bool) :
      Step s (evalLoopEffect { s with running := b })
  | unmount {s : CompState} :
      Step s { s with videoReady := false, loopArmed := false }

/-- Reachability from the freshly mounted component. -/
def Reachable (s : CompState) : Prop :=
  Relation.ReflTransGen Step initState s

/-- Concrete 1x1 inputs used by closed counterexamples and witnesses. -/
def canvasZero : QImage := ⟨1, 1, [⟨0, 0, 0, 0⟩]⟩

/-- A 1x1 canvas holding a previously composited opaque green pixel. -/
def canvasGreen : QImage := ⟨1, 1, [⟨0, 128, 0, 255⟩]⟩

/-- A 1x1 frame with RGB (1,1,1). -/
def frameOne : ImageData := ⟨1, 1, [1, 1, 1, 255]⟩

/-- A 1x1 frame with RGB (9,9,9). -/
def frameNine : ImageData := ⟨1, 1, [9, 9, 9, 255]⟩

/-- A 1x1 mask with alpha 255 (pure foreground). -/
def maskFull : ImageData := ⟨1, 1, [0, 0, 0, 255]⟩

/-- A 1x1 mask with alpha 0 (pure background). -/
def maskZero : ImageData := ⟨1, 1, [0, 0, 0, 0]⟩

/-- A 1x1 fully transparent background layer. -/
def bgClear : QImage := ⟨1, 1, [⟨7, 7, 7, 0⟩]⟩

/-- A 2x1 image with alphas 100 and 200. -/
def imgTwo : ImageData := ⟨2, 1, [0, 0, 0, 100, 0, 0, 0, 200]⟩

/-! ## Helper lemmas -/

theorem getD_map_range {α : Type} (f : Nat → α) (d : α) {n i : Nat} (h : i < n) :
    ((List.range n).map f).getD i d = f i := by
  rw [List.getD_eq_getElem?_getD, List.getElem?_eq_getElem (by simpa using h)]
  simp

theorem getD_replicate {α : Type} (a d : α) {n i : Nat} (h : i < n) :
    (List.replicate n a).getD i d = a := by
  rw [List.getD_eq_getElem?_getD, List.getElem?_eq_getElem (by simpa using h)]
  simp

theorem blurFold_fst (img : ImageData) (r : Nat) :
    ∀ (l : List Nat) (st : List Nat × List Nat),
      (l.foldl (blurStep img r) st).1 = st.1 := by
  intro l
  induction l with
  | nil => intro st; rfl
  | cons i t ih => intro st; rw [List.foldl_cons, ih]; rfl

theorem blurFold_snd_length (img : ImageData) (r : Nat) :
    ∀ (l : List Nat) (st : List Nat × List Nat),
      ((l.foldl (blurStep img r) st).2).length = st.2.length := by
  intro l
  induction l with
  | nil => intro st; rfl
  | cons i t ih =>
      intro st
      rw [List.foldl_cons, ih]
      simp [blurStep, List.length_set]

theorem blurIdx (w i : Nat) : (i / w * w + i % w) * 4 = 4 * i := by
  have h : i / w * w + i % w = i := by
    rw [Nat.mul_comm]
    exact Nat.div_add_mod i w
  rw [h, Nat.mul_comm]

theorem blurOut_getD (img : ImageData) (r : Nat)
    (hlen : img.data.length = 4 * (img.width * img.height)) :
    ∀ (n : Nat), n ≤ img.width * img.height → ∀ (j k : Nat), j < n → k < 4 →
      (((List.range n).foldl (blurStep img r)
          (img.data, List.replicate img.data.length 0)).2).getD (4 * j + k) 0
        = if k = 3 then blurVal img r (j % img.width) (j / img.width) else 0 := by
  intro n
  induction n with
  | zero => intro _ j k hj _; exact absurd hj (Nat.not_lt_zero j)
  | succ n ih =>
      intro hn j k hj hk
      rw [List.range_succ, List.foldl_append, List.foldl_cons, List.foldl_nil]
      rcases Nat.lt_or_ge j n with hjn | hge
      · simp only [blurStep]
        rw [blurIdx img.width n]
        rw [List.getD_eq_getElem?_getD,
            List.getElem?_set_ne (by omega), List.getElem?_set_ne (by omega),
            List.getElem?_set_ne (by omega), List.getElem?_set_ne (by omega),
            ← List.getD_eq_getElem?_getD]
        exact ih (by omega) j k hjn hk
      · have hj_eq : j = n := by omega
        subst hj_eq
        simp only [blurStep]
        rw [blurIdx img.width j]
        have hL : (((List.range j).foldl (blurStep img r)
            (img.data, List.replicate img.data.length 0)).2).length
            = 4 * (img.width * img.height) := by
          rw [blurFold_snd_length, List.length_replicate, hlen]
        interval_cases k
        · simp only [Nat.add_zero]
          rw [List.getD_eq_getElem?_getD,
              List.getElem?_set_ne (by omega),
              List.getElem?_set_ne (by omega),
              List.getElem?_set_ne (by omega),
              List.getElem?_set_self (by simp [List.length_set, hL]; omega)]
          simp
        · rw [List.getD_eq_getElem?_getD,
              List.getElem?_set_ne (by omega),
              List.getElem?_set_ne (by omega),
              List.getElem?_set_self (by simp [List.length_set, hL]; omega)]
          simp
        · rw [List.getD_eq_getElem?_getD,
              List.getElem?_set_ne (by omega),
              List.getElem?_set_self (by simp [List.length_set, hL]; omega)]
          simp
        · rw [List.getD_eq_getElem?_getD,
              List.getElem?_set_self (by simp [List.length_set, hL]; omega)]
          simp

theorem blurMask_alpha (img : ImageData) (r x y : Nat)
    (hlen : img.data.length = 4 * (img.width * img.height))
    (hx : x < img.width) (hy : y < img.height) :
    imgAlpha (blurMask img r) (y * img.width + x) = blurVal img r x y := by
  have hj : y * img.width + x < img.width * img.height := by
    calc y * img.width + x < (y + 1) * img.width := by rw [Nat.succ_mul]; omega
      _ ≤ img.height * img.width := Nat.mul_le_mul_right _ (by omega)
      _ = img.width * img.height := Nat.mul_comm _ _
  have hmod : (y * img.width + x) % img.width = x := by
    conv_lhs => rw [Nat.add_comm]
    rw [Nat.add_mul_mod_self_right, Nat.mod_eq_of_lt hx]
  have hdiv : (y * img.width + x) / img.width = y := by
    conv_lhs => rw [Nat.add_comm]
    rw [Nat.add_mul_div_right _ _ (by omega : 0 < img.width),
        Nat.div_eq_of_lt hx]
    omega
  show (blurMaskRun img r).2.getD ((y * img.width + x) * 4 + 3) 0 = _
  unfold blurMaskRun
  rw [show (y * img.width + x) * 4 + 3 = 4 * (y * img.width + x) + 3 from by
        ring]
  rw [blurOut_getD img r hlen (img.width * img.height) le_rfl _ 3 hj
        (by omega)]
  simp [hmod, hdiv]

theorem rowcol_lt {w h x y : Nat} (hx : x < w) (hy : y < h) :
    y * w + x < w * h := by
  calc y * w + x < (y + 1) * w := by rw [Nat.succ_mul]; omega
    _ ≤ h * w := Nat.mul_le_mul_right _ (by omega)
    _ = w * h := Nat.mul_comm _ _

theorem blurTmp_getD {img : ImageData} {i : Nat}
    (h : i < img.width * img.height) :
    (blurTmp img).getD i 0 = imgAlpha img i := by
  unfold blurTmp
  rw [getD_map_range _ _ h]
  rfl

theorem blurWindow_eq_specWindow (w h r x y : Nat) :
    blurWindow w h r x y = specWindow w h r x y := by
  unfold blurWindow specWindow
  have hy : ∀ yy ∈ List.range h,
      (decide (y - r ≤ yy) && decide (yy ≤ y + r))
        = (decide ((y : ℤ) - r ≤ (yy : ℤ)) && decide ((yy : ℤ) ≤ y + r)) := by
    intro yy _
    have h1 : (y - r ≤ yy) ↔ ((y : ℤ) - r ≤ (yy : ℤ)) := by omega
    have h2 : (yy ≤ y + r) ↔ ((yy : ℤ) ≤ (y : ℤ) + r) := by omega
    rw [decide_eq_decide.mpr h1, decide_eq_decide.mpr h2]
  have hx : ∀ xx ∈ List.range w,
      (decide (x - r ≤ xx) && decide (xx ≤ x + r))
        = (decide ((x : ℤ) - r ≤ (xx : ℤ)) && decide ((xx : ℤ) ≤ x + r)) := by
    intro xx _
    have h1 : (x - r ≤ xx) ↔ ((x : ℤ) - r ≤ (xx : ℤ)) := by omega
    have h2 : (xx ≤ x + r) ↔ ((xx : ℤ) ≤ (x : ℤ) + r) := by omega
    rw [decide_eq_decide.mpr h1, decide_eq_decide.mpr h2]
  rw [List.filter_congr hy, List.filter_congr hx]

theorem mem_blurWindow {w h r x y : Nat} {p : Nat × Nat}
    (hp : p ∈ blurWindow w h r x y) : p.1 < w ∧ p.2 < h := by
  unfold blurWindow at hp
  simp only [List.mem_flatMap, List.mem_map, List.mem_filter,
    List.mem_range] at hp
  obtain ⟨yy, ⟨hyy, _⟩, xx, ⟨⟨hxx, _⟩, rfl⟩⟩ := hp
  exact ⟨hxx, hyy⟩

theorem self_mem_blurWindow {w h r x y : Nat} (hx : x < w) (hy : y < h) :
    (x, y) ∈ blurWindow w h r x y := by
  unfold blurWindow
  simp only [List.mem_flatMap, List.mem_map, List.mem_filter, List.mem_range,
    Bool.and_eq_true, decide_eq_true_eq]
  exact ⟨y, ⟨hy, by omega, by omega⟩, x, ⟨⟨hx, by omega, by omega⟩, rfl⟩⟩

theorem jsRound_eq_floor (s c : Nat) :
    jsRound s c = ⌊((s : ℚ) / c + 1 / 2 : ℚ)⌋₊ := by
  rcases Nat.eq_zero_or_pos c with rfl | hc
  · simp [jsRound]
    rw [Nat.floor_eq_zero.mpr (by norm_num)]
  · have hrw : ((s : ℚ) / c + 1 / 2) = ((2 * s + c : Nat) : ℚ) / ((2 * c : Nat) : ℚ) := by
      have hc0 : (c : ℚ) ≠ 0 := Nat.cast_ne_zero.mpr (by omega)
      push_cast
      field_simp
      ring
    rw [hrw, Nat.floor_div_nat, Nat.floor_natCast]
    rfl

theorem blurVal_eq_spec (img : ImageData) (r x y : Nat) :
    blurVal img r x y = specMeanRounded img r x y := by
  unfold blurVal specMeanRounded
  rw [← blurWindow_eq_specWindow]
  have hmap : (blurWindow img.width img.height r x y).map
        (fun p => (blurTmp img).getD (p.2 * img.width + p.1) 0)
      = (blurWindow img.width img.height r x y).map
        (fun p => imgAlpha img (p.2 * img.width + p.1)) := by
    apply List.map_congr_left
    intro p hp
    obtain ⟨h1, h2⟩ := mem_blurWindow hp
    exact blurTmp_getD (rowcol_lt h1 h2)
  rw [hmap, jsRound_eq_floor]
  congr 1
  rw [Nat.cast_list_sum, List.map_map]
  rfl

theorem filter_window_zero (n a : Nat) (h : a < n) :
    (List.range n).filter (fun m => decide (a - 0 ≤ m) && decide (m ≤ a + 0))
      = [a] := by
  induction n with
  | zero => omega
  | succ n ih =>
      rw [List.range_succ, List.filter_append]
      rcases Nat.lt_or_ge a n with h1 | h2
      · rw [ih h1]
        have hnil : List.filter
            (fun m => decide (a - 0 ≤ m) && decide (m ≤ a + 0)) [n] = [] := by
          simp
          omega
        rw [hnil]
        simp
      · have ha : a = n := by omega
        subst ha
        have h0 : List.filter
            (fun m => decide (a - 0 ≤ m) && decide (m ≤ a + 0))
            (List.range a) = [] := by
          rw [List.filter_eq_nil_iff]
          intro m hm
          simp only [List.mem_range] at hm
          simp
          omega
        rw [h0]
        simp

theorem blurWindow_zero (w h x y : Nat) (hx : x < w) (hy : y < h) :
    blurWindow w h 0 x y = [(x, y)] := by
  unfold blurWindow
  simp only [filter_window_zero h y hy, filter_window_zero w x hx]
  simp

theorem blurVal_zero (img : ImageData) (x y : Nat)
    (hx : x < img.width) (hy : y < img.height) :
    blurVal img 0 x y = imgAlpha img (y * img.width + x) := by
  unfold blurVal
  rw [blurWindow_zero _ _ _ _ hx hy]
  simp only [List.map_cons, List.map_nil, List.sum_cons, List.sum_nil,
    List.length_cons, List.length_nil]
  rw [blurTmp_getD (rowcol_lt hx hy)]
  unfold jsRound
  omega

theorem blurVal_const (img : ImageData) (r x y : Nat)
    (hx : x < img.width) (hy : y < img.height)
    (h255 : ∀ j, j < img.width * img.height → imgAlpha img j = 255) :
    blurVal img r x y = 255 := by
  unfold blurVal
  have hmap : (blurWindow img.width img.height r x y).map
        (fun p => (blurTmp img).getD (p.2 * img.width + p.1) 0)
      = (blurWindow img.width img.height r x y).map (fun _ => (255 : Nat)) := by
    apply List.map_congr_left
    intro p hp
    obtain ⟨h1, h2⟩ := mem_blurWindow hp
    rw [blurTmp_getD (rowcol_lt h1 h2)]
    exact h255 _ (rowcol_lt h1 h2)
  have hpos : 0 < (blurWindow img.width img.height r x y).length :=
    List.length_pos_of_mem (self_mem_blurWindow hx hy)
  rw [hmap, List.map_const', List.sum_replicate, smul_eq_mul]
  unfold jsRound
  set c := (blurWindow img.width img.height r x y).length with hc
  rw [show 2 * (c * 255) + c = c + 2 * c * 255 from by ring,
      Nat.add_mul_div_left _ _ (by omega : 0 < 2 * c),
      Nat.div_eq_of_lt (by omega)]

theorem compose_pix (bgLayer : QImage) (videoData mask : ImageData)
    {i : Nat} (hi : i < videoData.width * videoData.height) :
    (compose bgLayer videoData mask).pix.getD i ⟨0, 0, 0, 0⟩
      = srcOverPix (bgLayer.pix.getD i ⟨0, 0, 0, 0⟩)
          ⟨imgR videoData i, imgG videoData i, imgB videoData i,
           imgAlpha mask i⟩ := by
  show ((List.range (videoData.width * videoData.height)).map _).getD i _ = _
  exact getD_map_range _ _ hi

theorem srcOverPix_opaque_dst (dst src : QPix) (hdst : dst.a = 255) :
    srcOverPix dst src =
      ⟨(src.r * src.a + dst.r * (255 - src.a)) / 255,
       (src.g * src.a + dst.g * (255 - src.a)) / 255,
       (src.b * src.a + dst.b * (255 - src.a)) / 255, 255⟩ := by
  simp only [srcOverPix, hdst]
  have hoa : src.a / 255 + (255 : ℚ) / 255 * (1 - src.a / 255) = 1 := by
    field_simp
  rw [hoa, if_neg one_ne_zero]
  simp only [QPix.mk.injEq]
  refine ⟨?_, ?_, ?_, by norm_num⟩ <;> field_simp

theorem srcOverPix_src255 (dst src : QPix) (hsrc : src.a = 255) :
    srcOverPix dst src = ⟨src.r, src.g, src.b, 255⟩ := by
  simp only [srcOverPix, hsrc]
  have hoa : (255 : ℚ) / 255 + dst.a / 255 * (1 - 255 / 255) = 1 := by
    norm_num
  rw [hoa, if_neg one_ne_zero]
  simp only [QPix.mk.injEq]
  refine ⟨?_, ?_, ?_, by norm_num⟩ <;> (norm_num)

/-! ## Claim C1: the frame-loop readiness gate -/

/-- C1 (amended): the loop is armed only in states where the gate
`modelStatus == ready AND videoReady AND running` holds — no reachable
state arms the loop while the gate is false — and a re-run of the loop
effect with `running = false` disarms the loop at once (the effect
re-evaluates the gate on every `modelStatus` or `running` change).
However, the effect does not re-run on `videoReady` changes, so the
converse direction of the claim fails (see the counterexample). -/
theorem C1_gate_invariant :
    (∀ s : CompState, Reachable s → s.loopArmed = true → canRun s = true) ∧
    (∀ s : CompState,
      (evalLoopEffect { s with running := false }).loopArmed = false) := by
  constructor
  · intro s hreach
    induction hreach with
    | refl => intro harm; exact absurd harm (by simp [initState])
    | tail h1 h2 ih =>
        intro harm
        cases h2 with
        | modelLoading h => exact harm
        | modelReady h => exact harm
        | modelFail h => exact harm
        | setRunning b => exact harm
        | videoLoaded =>
            have hc := ih harm
            simp [canRun] at hc ⊢
            tauto
        | unmount => exact absurd harm (by simp)
  · intro s
    simp [evalLoopEffect, canRun]

/-- C1 counterexample: the state with the model ready, the video ready
and `running = true` but the loop NOT armed is reachable (become ready,
start running, and only then receive the video's `loadeddata` event:
the loop effect does not re-run on `videoReadyRef` changes, per the
dependency array on Segmentation.tsx:323).  The gate holds, yet no
cycle is scheduled — refuting the claim that in every reachable state
where all three conditions hold the loop is (re-)armed. -/
theorem C1_gate_cex :
    Reachable ⟨ModelStatus.ready, true, true, false⟩ ∧
    canRun ⟨ModelStatus.ready, true, true, false⟩ = true ∧
    (⟨ModelStatus.ready, true, true, false⟩ : CompState).loopArmed = false := by
  refine ⟨?_, rfl, rfl⟩
  exact Relation.ReflTransGen.tail
    (Relation.ReflTransGen.tail
      (Relation.ReflTransGen.tail
        (Relation.ReflTransGen.tail Relation.ReflTransGen.refl
          (Step.modelLoading (s := initState) rfl))
        (Step.modelReady (s := ⟨ModelStatus.loading, false, false, false⟩) rfl))
      (Step.setRunning (s := ⟨ModelStatus.ready, false, false, false⟩) true))
    (Step.videoLoaded (s := ⟨ModelStatus.ready, false, true, false⟩))

/-- Witness for C1: a concrete reachable armed state, at which the
invariant instantiates (the gate indeed holds there). -/
theorem C1_gate_invariant_witness :
    canRun ⟨ModelStatus.ready, true, true, true⟩ = true :=
  C1_gate_invariant.1 ⟨ModelStatus.ready, true, true, true⟩
    (Relation.ReflTransGen.tail
      (Relation.ReflTransGen.tail
        (Relation.ReflTransGen.tail
          (Relation.ReflTransGen.tail Relation.ReflTransGen.refl
            (Step.modelLoading (s := initState) rfl))
          (Step.videoLoaded (s := ⟨ModelStatus.loading, false, false, false⟩)))
        (Step.modelReady (s := ⟨ModelStatus.loading, true, false, false⟩) rfl))
      (Step.setRunning (s := ⟨ModelStatus.ready, true, false, false⟩) true))
    rfl

/-! ## Claim C2: in-flight cycles after the gate flips false -/

/-- C2 counterexample: a cycle whose inference was in flight when
`running` flipped to false still draws its composite when it resolves —
`cycleResolve` with `runningAtResolve = false` changes the canvas.  This
refutes the claim that a liveness flag is checked immediately before
drawing and that no output frame is produced once the gate is false. -/
theorem C2_inflight_cex :
    cycleResolve zeroResample false canvasZero Option.none frameOne
        (SegOutcome.mask maskZero) ≠ canvasZero := by
  have hb : blurMask maskZero 1 = ⟨1, 1, [0, 0, 0, 0]⟩ := by decide
  have hrec : reconcileMask zeroResample maskZero 1 1 = ⟨1, 1, [0, 0, 0, 0]⟩ := by
    rw [← hb]
    unfold reconcileMask
    simp [maskZero]
  have hr1 : List.range 1 = [0] := rfl
  simp only [cycleResolve, cycleTry, frameOne, hrec]
  simp only [compose, greenFill, hr1, List.map_cons, List.map_nil]
  intro hcontra
  have := congrArg (fun q => (q.pix.getD 0 ⟨0, 0, 0, 0⟩).g) hcontra
  simp [srcOverPix, imgR, imgG, imgB, imgAlpha, canvasZero] at this

/-- C2 (amended): the liveness flag `runningRef` is consulted only at
the synchronous start of `processFrame` — if the gate is false when the
tick fires, no cycle starts and nothing is drawn — but the asynchronous
resolution path never re-reads it, so its value at resolution time has
no effect on what is drawn. -/
theorem C2_liveness_flag :
    (∀ (resample : ImageData → Nat → Nat → ImageData) (enhance : EnhanceMode)
        (canvas : QImage) (bg : Option QImage) (frame : ImageData)
        (outcome : SegOutcome) (rAr : Bool),
        processFrameStep resample false enhance canvas bg frame outcome rAr
          = (canvas, Option.none)) ∧
    (∀ (resample : ImageData → Nat → Nat → ImageData) (canvas : QImage)
        (bg : Option QImage) (frame : ImageData) (outcome : SegOutcome)
        (rAr rAr2 : Bool),
        cycleResolve resample rAr canvas bg frame outcome
          = cycleResolve resample rAr2 canvas bg frame outcome) :=
  ⟨fun _ _ _ _ _ _ _ => rfl, fun _ _ _ _ _ _ _ => rfl⟩

/-! ## Claim C3: per-cycle failures are absorbed — but the canvas is
reset -/

/-- C3 counterexample: a cycle that passes the running guard and then
throws does NOT leave the previously displayed composited output
unchanged — the synchronous width/height assignments
(Segmentation.tsx:191-192) have already reset the canvas bitmap to
transparent black, so a canvas holding a prior green composite ends the
failed cycle blank, refuting the byte-for-byte-unchanged part of the
claim. -/
theorem C3_reset_cex :
    (processFrameStep zeroResample true EnhanceMode.none canvasGreen
        Option.none frameOne SegOutcome.throws true).1 = blankCanvas 1 1 ∧
    (processFrameStep zeroResample true EnhanceMode.none canvasGreen
        Option.none frameOne SegOutcome.throws true).1 ≠ canvasGreen := by
  refine ⟨rfl, ?_⟩
  intro hcontra
  have h := congrArg (fun q => (q.pix.getD 0 (⟨0, 0, 0, 0⟩ : QPix)).a)
    hcontra
  simp [processFrameStep, cycleResolve, cycleTry, blankCanvas,
    canvasGreen, frameOne] at h

/-- C3 (amended): a failed cycle (inference throw, empty result array,
or no extractable mask) is absorbed — the throw is raised inside the try
block and caught, the async resolution draws nothing, and the
animation-frame loop proceeds to the next tick.  However, the
synchronous start of every running cycle resets the canvas bitmap via
the width/height assignments (Segmentation.tsx:191-192), so a failed
cycle ends with a transparent-black canvas at frame dimensions — the
prior composited output is blanked, not preserved, until a later
successful cycle draws. -/
theorem C3_failure_absorbed :
    (∀ (resample : ImageData → Nat → Nat → ImageData) (rAr : Bool)
        (canvas : QImage) (bg : Option QImage) (frame : ImageData)
        (outcome : SegOutcome),
        (outcome = SegOutcome.throws ∨ outcome = SegOutcome.noResult ∨
          outcome = SegOutcome.noMask) →
        cycleResolve resample rAr canvas bg frame outcome = canvas) ∧
    (∀ (resample : ImageData → Nat → Nat → ImageData) (canvas : QImage)
        (bg : Option QImage) (frame : ImageData),
        cycleTry resample canvas bg frame SegOutcome.throws
          = Except.error ()) ∧
    (∀ (resample : ImageData → Nat → Nat → ImageData)
        (enhance : EnhanceMode) (canvas : QImage) (bg : Option QImage)
        (frame : ImageData) (outcome : SegOutcome) (rAr : Bool),
        (outcome = SegOutcome.throws ∨ outcome = SegOutcome.noResult ∨
          outcome = SegOutcome.noMask) →
        (processFrameStep resample true enhance canvas bg frame outcome
            rAr).1
          = blankCanvas frame.width frame.height) ∧
    (∀ (resample : ImageData → Nat → Nat → ImageData) (canvas : QImage)
        (bg : Option QImage) (outcome : SegOutcome) (f : ImageData)
        (rest : List (ImageData × SegOutcome)),
        (outcome = SegOutcome.throws ∨ outcome = SegOutcome.noResult ∨
          outcome = SegOutcome.noMask) →
        runLoop resample canvas bg ((f, outcome) :: rest)
          = runLoop resample (blankCanvas f.width f.height) bg rest) := by
  refine ⟨?_, fun _ _ _ _ => rfl, ?_, ?_⟩
  · intro resample rAr canvas bg frame outcome h
    rcases h with rfl | rfl | rfl <;> rfl
  · intro resample enhance canvas bg frame outcome rAr h
    rcases h with rfl | rfl | rfl <;> rfl
  · intro resample canvas bg outcome f rest h
    simp only [runLoop, List.foldl_cons]
    rcases h with rfl | rfl | rfl <;> rfl

/-- Witness for C3 at concrete inputs: the async resolution of a
throwing cycle leaves its canvas argument unchanged; a full running
cycle with a mask-extraction failure ends with the blanked canvas; and
the loop continues past the failed tick. -/
theorem C3_failure_absorbed_witness :
    cycleResolve zeroResample true canvasGreen Option.none frameOne
        SegOutcome.throws = canvasGreen ∧
    (processFrameStep zeroResample true EnhanceMode.none canvasGreen
        Option.none frameOne SegOutcome.noMask true).1 = blankCanvas 1 1 ∧
    runLoop zeroResample canvasGreen Option.none
        [(frameOne, SegOutcome.noMask)]
      = runLoop zeroResample (blankCanvas 1 1) Option.none [] :=
  ⟨C3_failure_absorbed.1 zeroResample true canvasGreen Option.none frameOne
      SegOutcome.throws (Or.inl rfl),
   C3_failure_absorbed.2.2.1 zeroResample EnhanceMode.none canvasGreen
      Option.none frameOne SegOutcome.noMask true (Or.inr (Or.inr rfl)),
   C3_failure_absorbed.2.2.2 zeroResample canvasGreen Option.none
      SegOutcome.noMask frameOne [] (Or.inr (Or.inr rfl))⟩

/-! ## Claim C4: the enhancement transform and the compositing foreground -/

/-- C4 (amended): when the enhancement mode is `gamma`, the gamma
transform is applied to the offscreen working copy that is handed to the
inference service; the compositing stage re-captures the RAW frame from
the video element (Segmentation.tsx:276), so for a mask whose alpha is
255 everywhere the output pixel equals the raw — not the enhanced —
frame RGB, fully opaque, with zero background contribution. -/
theorem C4_enhance_routing :
    (∀ frame : ImageData,
        offscreenContent EnhanceMode.gamma frame = enhanceGamma frame) ∧
    (∀ (resample : ImageData → Nat → Nat → ImageData) (rAr : Bool)
        (canvas : QImage) (bg : Option QImage) (frame m : ImageData),
        m.width = frame.width → m.height = frame.height →
        m.data.length = 4 * (m.width * m.height) →
        (∀ j, j < m.width * m.height → imgAlpha m j = 255) →
        ∀ x y, x < frame.width → y < frame.height →
          (cycleResolve resample rAr canvas bg frame
              (SegOutcome.mask m)).pix.getD (y * frame.width + x)
              ⟨0, 0, 0, 0⟩
            = ⟨imgR frame (y * frame.width + x),
               imgG frame (y * frame.width + x),
               imgB frame (y * frame.width + x), 255⟩) := by
  refine ⟨fun _ => rfl, ?_⟩
  intro resample rAr canvas bg frame m hw hh hlen h255 x y hx hy
  have hxm : x < m.width := by rw [hw]; exact hx
  have hym : y < m.height := by rw [hh]; exact hy
  have halpha : imgAlpha (blurMask m 1) (y * frame.width + x) = 255 := by
    rw [← hw]
    rw [blurMask_alpha m 1 x y hlen hxm hym]
    exact blurVal_const m 1 x y hxm hym h255
  have hrec : reconcileMask resample m frame.width frame.height
      = blurMask m 1 := by
    unfold reconcileMask
    rw [if_pos ⟨hw, hh⟩]
  simp only [cycleResolve, cycleTry, hrec]
  rw [compose_pix _ _ _ (rowcol_lt hx hy)]
  rw [srcOverPix_src255 _ _ (by simp [halpha])]

/-- C4 counterexample: with gamma enhancement selected and an all-255
mask, the drawn pixel equals the RAW frame value (1), while the enhanced
foreground value is 6 — the output RGB does not equal the enhanced
foreground RGB, refuting the claim that the enhanced working copy is the
compositing foreground. -/
theorem C4_enhance_cex :
    ((processFrameStep zeroResample true EnhanceMode.gamma canvasZero
        Option.none frameOne (SegOutcome.mask maskFull) true).1.pix.getD 0
        ⟨0, 0, 0, 0⟩).r = 1 ∧
    (enhanceGamma frameOne).data.getD 0 0 = 6 ∧
    ((processFrameStep zeroResample true EnhanceMode.gamma canvasZero
        Option.none frameOne (SegOutcome.mask maskFull) true).1.pix.getD 0
        ⟨0, 0, 0, 0⟩).r
      ≠ ((enhanceGamma frameOne).data.getD 0 0 : ℚ) := by
  have h2 : (enhanceGamma frameOne).data.getD 0 0 = 6 := by decide
  have hb : blurMask maskFull 1 = ⟨1, 1, [0, 0, 0, 255]⟩ := by decide
  have hrec : reconcileMask zeroResample maskFull 1 1
      = ⟨1, 1, [0, 0, 0, 255]⟩ := by
    rw [← hb]
    unfold reconcileMask
    simp [maskFull]
  have hr1 : List.range 1 = [0] := rfl
  have h1 : ((processFrameStep zeroResample true EnhanceMode.gamma canvasZero
      Option.none frameOne (SegOutcome.mask maskFull) true).1.pix.getD 0
      ⟨0, 0, 0, 0⟩).r = 1 := by
    simp only [processFrameStep, if_true, cycleResolve, cycleTry, frameOne,
      hrec]
    simp only [compose, greenFill, hr1, List.map_cons, List.map_nil]
    simp [srcOverPix, imgR, imgG, imgB, imgAlpha]
  exact ⟨h1, h2, by rw [h1, h2]; norm_num⟩

/-- Witness for C4's amended theorem at a concrete input: a 1x1 frame
with RGB 9 and an all-255 mask composites to the raw value 9. -/
theorem C4_enhance_routing_witness :
    (cycleResolve zeroResample true canvasZero Option.none frameNine
        (SegOutcome.mask maskFull)).pix.getD 0 ⟨0, 0, 0, 0⟩
      = ⟨imgR frameNine 0, imgG frameNine 0, imgB frameNine 0, 255⟩ :=
  C4_enhance_routing.2 zeroResample true canvasZero Option.none frameNine
    maskFull rfl rfl rfl (by decide) 0 0 (by decide) (by decide)

/-! ## Claim C5: the per-pixel compositing formula -/

/-- C5 (amended): for equal-dimension background layer, frame and
reconciled mask, if the background layer is fully opaque then the
composite has the frame's dimensions and, at every pixel, each RGB
channel equals `(fg*alpha + bg*(255-alpha)) / 255` (independently per
channel) and the output alpha is 255.  The opacity premise is forced by
canvas source-over semantics: a transparent background layer pixel
yields a non-opaque output pixel (see the counterexample). -/
theorem C5_compose_formula :
    ∀ (bgLayer : QImage) (videoData mask : ImageData),
      bgLayer.width = videoData.width → bgLayer.height = videoData.height →
      mask.width = videoData.width → mask.height = videoData.height →
      (∀ i, i < videoData.width * videoData.height →
        (bgLayer.pix.getD i ⟨0, 0, 0, 0⟩).a = 255) →
      (compose bgLayer videoData mask).width = videoData.width ∧
      (compose bgLayer videoData mask).height = videoData.height ∧
      (compose bgLayer videoData mask).pix.length
        = videoData.width * videoData.height ∧
      (∀ i, i < videoData.width * videoData.height →
        ((compose bgLayer videoData mask).pix.getD i ⟨0, 0, 0, 0⟩).a = 255 ∧
        ((compose bgLayer videoData mask).pix.getD i ⟨0, 0, 0, 0⟩).r
          = ((imgR videoData i : ℚ) * (imgAlpha mask i : ℚ)
              + (bgLayer.pix.getD i ⟨0, 0, 0, 0⟩).r
                * (255 - (imgAlpha mask i : ℚ))) / 255 ∧
        ((compose bgLayer videoData mask).pix.getD i ⟨0, 0, 0, 0⟩).g
          = ((imgG videoData i : ℚ) * (imgAlpha mask i : ℚ)
              + (bgLayer.pix.getD i ⟨0, 0, 0, 0⟩).g
                * (255 - (imgAlpha mask i : ℚ))) / 255 ∧
        ((compose bgLayer videoData mask).pix.getD i ⟨0, 0, 0, 0⟩).b
          = ((imgB videoData i : ℚ) * (imgAlpha mask i : ℚ)
              + (bgLayer.pix.getD i ⟨0, 0, 0, 0⟩).b
                * (255 - (imgAlpha mask i : ℚ))) / 255) := by
  intro bgLayer videoData mask hbw hbh hmw hmh hopq
  refine ⟨rfl, rfl, ?_, ?_⟩
  · show ((List.range (videoData.width * videoData.height)).map _).length = _
    rw [List.length_map, List.length_range]
  · intro i hi
    rw [compose_pix _ _ _ hi,
        srcOverPix_opaque_dst _ _ (hopq i hi)]
    exact ⟨rfl, rfl, rfl, rfl⟩

/-- C5 counterexample: with a fully transparent 1x1 background layer
(equal dimensions throughout) and a mask alpha of 0, the composite's
output alpha is 0, not 255 — the claim's unconditional full-opacity
statement fails for backgrounds that themselves carry transparency. -/
theorem C5_compose_cex :
    ((compose bgClear frameOne maskZero).pix.getD 0 ⟨0, 0, 0, 0⟩).a = 0 ∧
    ((0 : ℚ) ≠ 255) := by
  constructor
  · have hr1 : List.range 1 = [0] := rfl
    simp only [compose, frameOne, bgClear, maskZero, hr1, List.map_cons,
      List.map_nil]
    simp [srcOverPix, imgR, imgG, imgB, imgAlpha]
  · norm_num

/-- Witness for C5 at a concrete input: over the opaque green fallback
layer the composite is fully opaque. -/
theorem C5_compose_formula_witness :
    ((compose (greenFill 1 1) frameOne maskZero).pix.getD 0
        ⟨0, 0, 0, 0⟩).a = 255 :=
  ((C5_compose_formula (greenFill 1 1) frameOne maskZero rfl rfl rfl rfl
      (fun i hi => by
        show ((List.replicate (1 * 1) (⟨0, 128, 0, 255⟩ : QPix)).getD i
            ⟨0, 0, 0, 0⟩).a = 255
        rw [getD_replicate _ _ (show i < 1 * 1 from hi)])).2.2.2 0
      (by decide)).1

/-! ## Claim C6: background cover scaling -/

/-- C6 (amended): the main pipeline draws the background with
destination rectangle equal to the full canvas, i.e. it stretches the
background anisotropically whenever the aspect ratios differ; the
legacy `replaceBackground`/`createBackground` paths do compute cover
semantics — scale `max(canvasW/bgW, canvasH/bgH)`, aspect preserved,
canvas covered, centred symmetrically. -/
theorem C6_cover_scaling :
    (∀ cw ch bw bh : Nat, bgDrawRectMain cw ch bw bh = ⟨0, 0, cw, ch⟩) ∧
    (∀ cw ch bw bh : Nat, 0 < bw → 0 < bh →
      (coverRect cw ch bw bh).w * bh = (coverRect cw ch bw bh).h * bw ∧
      (cw : ℚ) ≤ (coverRect cw ch bw bh).w ∧
      (ch : ℚ) ≤ (coverRect cw ch bw bh).h ∧
      2 * (coverRect cw ch bw bh).x = cw - (coverRect cw ch bw bh).w ∧
      2 * (coverRect cw ch bw bh).y = ch - (coverRect cw ch bw bh).h) := by
  refine ⟨fun _ _ _ _ => rfl, ?_⟩
  intro cw ch bw bh hbw hbh
  have hbwq : (0 : ℚ) < bw := by exact_mod_cast hbw
  have hbhq : (0 : ℚ) < bh := by exact_mod_cast hbh
  refine ⟨by simp only [coverRect]; ring, ?_, ?_, by simp only [coverRect]; ring,
    by simp only [coverRect]; ring⟩
  · show (cw : ℚ) ≤ (bw : ℚ) * max ((cw : ℚ) / bw) ((ch : ℚ) / bh)
    have h1 : (cw : ℚ) / bw ≤ max ((cw : ℚ) / bw) ((ch : ℚ) / bh) :=
      le_max_left _ _
    rw [div_le_iff₀ hbwq] at h1
    calc (cw : ℚ) ≤ max ((cw : ℚ) / bw) ((ch : ℚ) / bh) * bw := h1
      _ = (bw : ℚ) * max ((cw : ℚ) / bw) ((ch : ℚ) / bh) := by ring
  · show (ch : ℚ) ≤ (bh : ℚ) * max ((cw : ℚ) / bw) ((ch : ℚ) / bh)
    have h1 : (ch : ℚ) / bh ≤ max ((cw : ℚ) / bw) ((ch : ℚ) / bh) :=
      le_max_right _ _
    rw [div_le_iff₀ hbhq] at h1
    calc (ch : ℚ) ≤ max ((cw : ℚ) / bw) ((ch : ℚ) / bh) * bh := h1
      _ = (bh : ℚ) * max ((cw : ℚ) / bw) ((ch : ℚ) / bh) := by ring

/-- C6 counterexample: for a 2x2 canvas and a 1x2 background, the main
pipeline draws at the full-canvas rectangle (0,0,2,2) while cover
semantics requires (0,-1,2,4); the drawn rectangle distorts the aspect
ratio (2*2 is not equal to 2*1) — refuting the claim that the main
compositor cover-scales the background. -/
theorem C6_cover_cex :
    bgDrawRectMain 2 2 1 2 = ⟨0, 0, 2, 2⟩ ∧
    coverRect 2 2 1 2 = ⟨0, -1, 2, 4⟩ ∧
    bgDrawRectMain 2 2 1 2 ≠ coverRect 2 2 1 2 ∧
    (bgDrawRectMain 2 2 1 2).w * (2 : ℚ) ≠ (bgDrawRectMain 2 2 1 2).h * 1 := by
  have hcov : coverRect 2 2 1 2 = ⟨0, -1, 2, 4⟩ := by
    simp only [coverRect, QRect.mk.injEq]
    norm_num [max_def]
  refine ⟨rfl, hcov, ?_, by norm_num [bgDrawRectMain]⟩
  rw [hcov]
  simp only [bgDrawRectMain, ne_eq, QRect.mk.injEq]
  norm_num

/-- Witness for C6 at a concrete input: the legacy cover rectangle for a
2x2 canvas and 1x2 background preserves the background's aspect ratio. -/
theorem C6_cover_scaling_witness :
    (coverRect 2 2 1 2).w * (2 : ℚ) = (coverRect 2 2 1 2).h * 1 :=
  (C6_cover_scaling.2 2 2 1 2 (by decide) (by decide)).1

/-! ## Claim C7: the fallback background fill -/

/-- C7 (amended): when no background image is cached, the compositor
fills the canvas with opaque CSS `green` rgb(0,128,0) — not a neutral
light gray — and at every pixel whose reconciled mask alpha is 0 the
output pixel equals that green fill, fully opaque. -/
theorem C7_fallback_fill :
    (∀ (resample : ImageData → Nat → Nat → ImageData) (rAr : Bool)
        (canvas : QImage) (frame m : ImageData),
        cycleResolve resample rAr canvas Option.none frame
            (SegOutcome.mask m)
          = compose (greenFill frame.width frame.height) frame
              (reconcileMask resample m frame.width frame.height)) ∧
    (∀ (frame mask : ImageData) (i : Nat),
        i < frame.width * frame.height → imgAlpha mask i = 0 →
        (compose (greenFill frame.width frame.height) frame mask).pix.getD i
            ⟨0, 0, 0, 0⟩ = ⟨0, 128, 0, 255⟩) := by
  refine ⟨fun _ _ _ _ _ => rfl, ?_⟩
  intro frame mask i hi h0
  rw [compose_pix _ _ _ hi]
  have hg : (greenFill frame.width frame.height).pix.getD i ⟨0, 0, 0, 0⟩
      = ⟨0, 128, 0, 255⟩ := getD_replicate _ _ hi
  rw [hg, srcOverPix_opaque_dst _ _ rfl]
  simp only [QPix.mk.injEq, h0]
  norm_num

/-- C7 counterexample: with no background cached and mask alpha 0, the
drawn pixel is rgb(0,128,0) — its red and green channels differ, so the
fill is not any neutral (r = g = b) light gray, refuting the claimed
fallback colour. -/
theorem C7_fallback_cex :
    (cycleResolve zeroResample true canvasZero Option.none frameOne
        (SegOutcome.mask maskZero)).pix.getD 0 ⟨0, 0, 0, 0⟩
      = ⟨0, 128, 0, 255⟩ ∧
    ¬((⟨0, 128, 0, 255⟩ : QPix).r = (⟨0, 128, 0, 255⟩ : QPix).g) := by
  constructor
  · have hb : blurMask maskZero 1 = ⟨1, 1, [0, 0, 0, 0]⟩ := by decide
    have hrec : reconcileMask zeroResample maskZero 1 1
        = ⟨1, 1, [0, 0, 0, 0]⟩ := by
      rw [← hb]
      unfold reconcileMask
      simp [maskZero]
    have hr1 : List.range 1 = [0] := rfl
    simp only [cycleResolve, cycleTry, frameOne, hrec]
    simp only [compose, greenFill, hr1, List.map_cons, List.map_nil]
    simp [srcOverPix, imgR, imgG, imgB, imgAlpha]
  · norm_num

/-- Witness for C7's amended theorem at a concrete input. -/
theorem C7_fallback_fill_witness :
    (compose (greenFill frameOne.width frameOne.height) frameOne
        maskZero).pix.getD 0 ⟨0, 0, 0, 0⟩ = ⟨0, 128, 0, 255⟩ :=
  C7_fallback_fill.2 frameOne maskZero 0 (by decide) (by decide)

/-! ## Claim C8: mask reconciliation structure -/

/-- C8: reconciliation skips resampling exactly when the raw mask
dimensions equal the frame dimensions and applies the resampler
otherwise; in every case the radius-1 `blurMask` is the unconditional
final step, and (for any dimension-correct resampler) the reconciled
buffer has exactly the frame's dimensions. -/
theorem C8_reconcile_steps :
    (∀ (resample : ImageData → Nat → Nat → ImageData) (m : ImageData)
        (w h : Nat), m.width = w → m.height = h →
        reconcileMask resample m w h = blurMask m 1) ∧
    (∀ (resample : ImageData → Nat → Nat → ImageData) (m : ImageData)
        (w h : Nat), ¬(m.width = w ∧ m.height = h) →
        reconcileMask resample m w h = blurMask (resample m w h) 1) ∧
    (∀ (resample : ImageData → Nat → Nat → ImageData) (m : ImageData)
        (w h : Nat),
        (∀ (m2 : ImageData) (w2 h2 : Nat),
          (resample m2 w2 h2).width = w2 ∧ (resample m2 w2 h2).height = h2) →
        (reconcileMask resample m w h).width = w ∧
        (reconcileMask resample m w h).height = h) := by
  refine ⟨?_, ?_, ?_⟩
  · intro resample m w h hw hh
    unfold reconcileMask
    rw [if_pos ⟨hw, hh⟩]
  · intro resample m w h hne
    unfold reconcileMask
    rw [if_neg hne]
  · intro resample m w h hres
    unfold reconcileMask
    by_cases hc : m.width = w ∧ m.height = h
    · rw [if_pos hc]
      exact ⟨hc.1, hc.2⟩
    · rw [if_neg hc]
      exact hres m w h

/-- Witness for C8 at concrete inputs: a matching 1x1 mask skips
resampling; a mismatched target resamples; and the reconciled buffer has
the target dimensions. -/
theorem C8_reconcile_steps_witness :
    reconcileMask zeroResample maskZero 1 1 = blurMask maskZero 1 ∧
    reconcileMask zeroResample maskZero 2 2
      = blurMask (zeroResample maskZero 2 2) 1 ∧
    (reconcileMask zeroResample maskZero 2 2).width = 2 :=
  ⟨C8_reconcile_steps.1 zeroResample maskZero 1 1 rfl rfl,
   C8_reconcile_steps.2.1 zeroResample maskZero 2 2 (by decide),
   (C8_reconcile_steps.2.2 zeroResample maskZero 2 2
      (fun _ _ _ => ⟨rfl, rfl⟩)).1⟩

/-! ## Claim C9: boxBlurAlpha computes the windowed mean -/

/-- C9: for every buffer (well-formed RGBA byte length) and radius, the
blurred alpha at pixel `(x, y)` equals the spec's unweighted mean of the
alpha values over the in-bounds `(2r+1) x (2r+1)` window (divisor = the
number of in-bounds samples, no wrap-around, no zero padding), rounded
to the nearest integer; and at radius 0 the alpha channel is returned
unchanged. -/
theorem C9_boxBlur :
    (∀ (img : ImageData) (r x y : Nat),
        img.data.length = 4 * (img.width * img.height) →
        x < img.width → y < img.height →
        imgAlpha (blurMask img r) (y * img.width + x)
          = specMeanRounded img r x y) ∧
    (∀ (img : ImageData) (x y : Nat),
        img.data.length = 4 * (img.width * img.height) →
        x < img.width → y < img.height →
        imgAlpha (blurMask img 0) (y * img.width + x)
          = imgAlpha img (y * img.width + x)) := by
  constructor
  · intro img r x y hlen hx hy
    rw [blurMask_alpha img r x y hlen hx hy, blurVal_eq_spec]
  · intro img x y hlen hx hy
    rw [blurMask_alpha img 0 x y hlen hx hy, blurVal_zero img x y hx hy]

/-- Witness for C9 at a concrete 2x1 buffer with alphas 100 and 200. -/
theorem C9_boxBlur_witness :
    imgAlpha (blurMask imgTwo 1) 0 = specMeanRounded imgTwo 1 0 0 ∧
    imgAlpha (blurMask imgTwo 0) 0 = imgAlpha imgTwo 0 :=
  ⟨C9_boxBlur.1 imgTwo 1 0 0 rfl (by decide) (by decide),
   C9_boxBlur.2 imgTwo 0 0 rfl (by decide) (by decide)⟩

/-! ## Claim C10: blurMask allocates fresh output and never mutates -/

/-- C10: the `blurMask` write loop leaves the input data buffer
untouched (its writes target only the freshly allocated output buffer);
the returned `ImageData` has the input's width, height and byte length;
and every RGB byte of the output is 0 (only alpha is meaningful). -/
theorem C10_blur_fresh :
    (∀ (img : ImageData) (r : Nat), (blurMaskRun img r).1 = img.data) ∧
    (∀ (img : ImageData) (r : Nat),
        (blurMask img r).width = img.width ∧
        (blurMask img r).height = img.height ∧
        (blurMask img r).data.length = img.data.length) ∧
    (∀ (img : ImageData) (r j k : Nat),
        img.data.length = 4 * (img.width * img.height) →
        j < img.width * img.height → k < 3 →
        (blurMask img r).data.getD (4 * j + k) 0 = 0) := by
  refine ⟨?_, ?_, ?_⟩
  · intro img r
    exact blurFold_fst img r _ _
  · intro img r
    refine ⟨rfl, rfl, ?_⟩
    show (blurMaskRun img r).2.length = _
    unfold blurMaskRun
    rw [blurFold_snd_length, List.length_replicate]
  · intro img r j k hlen hj hk
    show (blurMaskRun img r).2.getD _ _ = 0
    unfold blurMaskRun
    rw [blurOut_getD img r hlen _ le_rfl j k hj (by omega)]
    rw [if_neg (by omega)]

/-- Witness for C10 at a concrete 2x1 buffer. -/
theorem C10_blur_fresh_witness :
    (blurMaskRun imgTwo 1).1 = imgTwo.data ∧
    (blurMask imgTwo 1).data.length = imgTwo.data.length ∧
    (blurMask imgTwo 1).data.getD (4 * 1 + 2) 0 = 0 :=
  ⟨C10_blur_fresh.1 imgTwo 1,
   (C10_blur_fresh.2.1 imgTwo 1).2.2,
   C10_blur_fresh.2.2 imgTwo 1 1 2 rfl (by decide) (by decide)⟩
